import Mathlib

/-!
Shallow embedding of the timeline-rendering pipeline and job-orchestration
layer of the clipcraft repository (server/app/services/video_renderer.py and
server/app/routes/process.py), together with theorems settling the frozen
claims about it.

Conventions of the embedding:
- Python strings are Lean `String`s; most string processing is done on the
  underlying `List Char` with executable helpers mirroring `str.split`,
  `int(...)`, `float(...)` (whitespace/exponent/underscore forms that Python
  also tolerates are not modelled; every string the model accepts is parsed
  exactly as Python parses it).
- Python floats are modelled as `ℚ`.
- Filesystem state (`os.path.exists`, `ffprobe`) is an explicit environment
  record; external ffmpeg invocations are modelled by the data (command
  arguments / filter graphs) the code builds for them, and are assumed to
  succeed unless the Python code itself raises.
- Fallible code returns `Except String`.
-/

namespace ClipCraft

/-! ## Python scalar helpers -/

/-- Numeric value of a decimal digit character. -/
def digitVal (c : Char) : Nat := c.toNat - 48

/-- Value of a list of decimal digit characters, most significant first. -/
def natOfDigits (cs : List Char) : Nat := cs.foldl (fun a c => a * 10 + digitVal c) 0

/-- Parses a non-empty all-digit character list, as the final step of
Python `int(...)` on an unsigned body. -/
def parseNatDigits (cs : List Char) : Option Nat :=
  if cs ≠ [] ∧ cs.all Char.isDigit then some (natOfDigits cs) else none

/-- Model of `str.split(sep)` for a single-character separator (same
semantics as `String.splitOn`): splits into the (possibly empty) chunks
between occurrences of `sep`. -/
def splitOnChar (sep : Char) : List Char → List (List Char)
  | [] => [[]]
  | c :: rest =>
    let r := splitOnChar sep rest
    if c = sep then [] :: r
    else
      match r with
      | h :: t => (c :: h) :: t
      | [] => [[c]]

/-- Model of Python `int(s)`: optional sign followed by decimal digits. -/
def pyIntOfList (cs : List Char) : Option ℤ :=
  match cs with
  | c :: rest =>
    if c = '-' then (parseNatDigits rest).map (fun n => -(n : ℤ))
    else if c = '+' then (parseNatDigits rest).map (fun n => (n : ℤ))
    else (parseNatDigits cs).map (fun n => (n : ℤ))
  | [] => none

/-- Model of Python `int(s)` on a `String`. -/
def pyIntOfString (s : String) : Option ℤ := pyIntOfList s.data

/-- Unsigned body of Python `float(s)`: digits with an optional decimal
point; at least one digit overall. -/
def pyFloatBody (cs : List Char) : Option ℚ :=
  match splitOnChar '.' cs with
  | [ip] =>
    if ip ≠ [] ∧ ip.all Char.isDigit then some ((natOfDigits ip : ℚ)) else none
  | [ip, fp] =>
    if (ip ≠ [] ∨ fp ≠ []) ∧ ip.all Char.isDigit ∧ fp.all Char.isDigit then
      some ((natOfDigits ip : ℚ) + (natOfDigits fp : ℚ) / ((10 : ℚ) ^ fp.length))
    else none
  | _ => none

/-- Model of Python `float(s)`: optional sign followed by a decimal body. -/
def pyFloatOfList (cs : List Char) : Option ℚ :=
  match cs with
  | c :: rest =>
    if c = '-' then (pyFloatBody rest).map (fun q => -q)
    else if c = '+' then pyFloatBody rest
    else pyFloatBody cs
  | [] => pyFloatBody []

/-- Model of Python `float(s)` on a `String`. -/
def pyFloatOfString (s : String) : Option ℚ := pyFloatOfList s.data

/-- Decimal digit characters of a natural number, most significant first,
as produced by Python `str(n)` for `n ≥ 0`. -/
def natDecimal (n : Nat) : List Char :=
  if n = 0 then ['0'] else (Nat.digits 10 n).reverse.map (fun d => Char.ofNat (48 + d))

/-- Decimal character representation of an integer, as Python `str(d)`. -/
def intDecimal (d : ℤ) : List Char :=
  if d < 0 then '-' :: natDecimal d.natAbs else natDecimal d.toNat

/-- Model of Python `str(d)` for an integer `d`. -/
def pyStrOfInt (d : ℤ) : String := ⟨intDecimal d⟩

/-- A Python value that can reach `parse_duration`: a number or a string. -/
inductive PyVal
  | num (q : ℚ)
  | str (s : String)
  deriving Repr, DecidableEq

/-- Embedding of `parse_duration` (video_renderer.py lines 202-212): numbers
pass through `float(...)`; a string with a single colon parses as
`int(minutes) * 60 + float(seconds)`; any other string goes through
`float(...)` (and a string with two or more colons therefore fails). -/
def parse_duration (v : PyVal) : Except String ℚ :=
  match v with
  | .num q => .ok q
  | .str s =>
    if s.data.any (fun c => c = ':') then
      match splitOnChar ':' s.data with
      | [m, sec] =>
        match pyIntOfList m, pyFloatOfList sec with
        | some a, some b => .ok ((a : ℚ) * 60 + b)
        | _, _ => .error ("invalid duration components: " ++ s)
      | _ => .error ("could not convert string to float: " ++ s)
    else
      match pyFloatOfList s.data with
      | some q => .ok q
      | none => .error ("could not convert string to float: " ++ s)

/-! ## Round-trip lemmas for decimal printing and reparsing -/

theorem digitVal_ofNat {d : Nat} (hd : d < 10) :
    digitVal (Char.ofNat (48 + d)) = d ∧ (Char.ofNat (48 + d)).isDigit = true := by
  interval_cases d <;> exact ⟨rfl, rfl⟩

theorem foldl_reverse_ofDigits (L : List Nat) (a : Nat) :
    L.reverse.foldl (fun x d => x * 10 + d) a = a * 10 ^ L.length + Nat.ofDigits 10 L := by
  induction L generalizing a with
  | nil => simp [Nat.ofDigits]
  | cons d L ih =>
    simp only [List.reverse_cons, List.foldl_append, List.foldl_cons, List.foldl_nil,
      Nat.ofDigits_cons, List.length_cons, ih]
    ring

theorem natDecimal_digits (n : Nat) :
    (natDecimal n).all Char.isDigit = true ∧ natDecimal n ≠ [] ∧
      natOfDigits (natDecimal n) = n := by
  by_cases h : n = 0
  · subst h; exact ⟨rfl, by decide, rfl⟩
  · unfold natDecimal
    rw [if_neg h]
    have hdig : ∀ d ∈ Nat.digits 10 n, d < 10 := fun d hd =>
      Nat.digits_lt_base (by norm_num) hd
    refine ⟨?_, ?_, ?_⟩
    · rw [List.all_eq_true]
      intro c hc
      rw [List.mem_map] at hc
      obtain ⟨d, hd, rfl⟩ := hc
      exact (digitVal_ofNat (hdig d (List.mem_reverse.mp hd))).2
    · simp only [ne_eq, List.map_eq_nil_iff, List.reverse_eq_nil_iff]
      exact Nat.digits_ne_nil_iff_ne_zero.mpr h
    · unfold natOfDigits
      rw [List.foldl_map]
      have : ((Nat.digits 10 n).reverse.foldl
          (fun x d => x * 10 + digitVal (Char.ofNat (48 + d))) 0)
          = ((Nat.digits 10 n).reverse.foldl (fun x d => x * 10 + d) 0) := by
        apply List.foldl_ext
        intro a d hd
        rw [(digitVal_ofNat (hdig d (List.mem_reverse.mp hd))).1]
      rw [this, foldl_reverse_ofDigits, Nat.ofDigits_digits]
      simp

theorem splitOnChar_no_sep {sep : Char} {cs : List Char}
    (h : ∀ c ∈ cs, ¬ c = sep) : splitOnChar sep cs = [cs] := by
  induction cs with
  | nil => rfl
  | cons c rest ih =>
    have hc : ¬ c = sep := h c (List.mem_cons_self c rest)
    have hrest := ih (fun x hx => h x (List.mem_cons_of_mem c hx))
    simp [splitOnChar, hc, hrest]

theorem natDecimal_no_char (n : Nat) (sep : Char) (hsep : sep.isDigit = false) :
    ∀ c ∈ natDecimal n, ¬ c = sep := by
  intro c hc heq
  have := (natDecimal_digits n).1
  rw [List.all_eq_true] at this
  have hd := this c hc
  subst heq
  rw [hsep] at hd
  exact Bool.false_ne_true hd

theorem pyFloatBody_natDecimal (n : Nat) :
    pyFloatBody (natDecimal n) = some (n : ℚ) := by
  obtain ⟨hall, hne, hval⟩ := natDecimal_digits n
  unfold pyFloatBody
  rw [splitOnChar_no_sep (natDecimal_no_char n '.' rfl)]
  simp [hne, hall, hval]

theorem pyFloatOfList_digits {cs : List Char} (hall : cs.all Char.isDigit = true) :
    pyFloatOfList cs = pyFloatBody cs := by
  match cs with
  | [] => rfl
  | c :: rest =>
    have hc : c.isDigit = true := by
      rw [List.all_eq_true] at hall
      exact hall c (List.mem_cons_self c rest)
    have hc1 : ¬ c = '-' := by intro h; rw [h] at hc; exact absurd hc (by decide)
    have hc2 : ¬ c = '+' := by intro h; rw [h] at hc; exact absurd hc (by decide)
    simp [pyFloatOfList, hc1, hc2]

theorem pyFloatOfList_intDecimal (d : ℤ) :
    pyFloatOfList (intDecimal d) = some (d : ℚ) := by
  unfold intDecimal
  by_cases h : d < 0
  · rw [if_pos h]
    have hstep : pyFloatOfList ('-' :: natDecimal d.natAbs)
        = (pyFloatBody (natDecimal d.natAbs)).map (fun q => -q) := by
      simp [pyFloatOfList]
    rw [hstep, pyFloatBody_natDecimal]
    have hval : -((d.natAbs : ℚ)) = (d : ℚ) := by
      rw [Int.cast_natAbs, abs_of_neg h]
      push_cast
      ring
    simp [hval]
  · rw [if_neg h]
    have hd0 : 0 ≤ d := le_of_not_gt h
    rw [pyFloatOfList_digits (natDecimal_digits d.toNat).1, pyFloatBody_natDecimal]
    have : ((d.toNat : ℚ)) = (d : ℚ) := by exact_mod_cast Int.toNat_of_nonneg hd0
    rw [this]

theorem parse_duration_pyStrOfInt (d : ℤ) :
    parse_duration (.str (pyStrOfInt d)) = .ok (d : ℚ) := by
  have hnc : ∀ c ∈ intDecimal d, ¬ c = ':' := by
    unfold intDecimal
    by_cases h : d < 0
    · rw [if_pos h]
      intro c hc
      rcases List.mem_cons.mp hc with h1 | h2
      · subst h1; decide
      · exact natDecimal_no_char _ ':' rfl c h2
    · rw [if_neg h]; exact natDecimal_no_char _ ':' rfl
  unfold parse_duration pyStrOfInt
  have hany : (String.mk (intDecimal d)).data.any (fun c => c = ':') = false := by
    rw [List.any_eq_false]
    intro c hc
    simpa using hnc c hc
  simp only [hany, Bool.false_eq_true, if_false]
  show (match pyFloatOfList (intDecimal d) with
    | some q => Except.ok q
    | none => Except.error ("could not convert string to float: " ++ String.mk (intDecimal d))) = _
  rw [pyFloatOfList_intDecimal]

/-! ## String helpers mirroring the Python string methods used by the code -/

/-- Boolean prefix test on character lists. -/
def listPre : List Char → List Char → Bool
  | [], _ => true
  | _ :: _, [] => false
  | a :: as, b :: bs => a = b && listPre as bs

/-- Model of `s.startswith(p)`. -/
def strStarts (s p : String) : Bool := listPre p.data s.data

/-- Model of `s.endswith(p)`. -/
def strEnds (s p : String) : Bool := listPre p.data.reverse s.data.reverse

/-- Model of `str.lower` on one character (ASCII letters only, as every
string the code lowercases is a filename or extension). -/
def pyLowerChar (c : Char) : Char :=
  if 65 ≤ c.toNat ∧ c.toNat ≤ 90 then Char.ofNat (c.toNat + 32) else c

/-- Model of `s.lower()`. -/
def pyLower (s : String) : String := ⟨s.data.map pyLowerChar⟩

/-- Whitespace characters removed by `str.strip()`. -/
def isSpaceChar (c : Char) : Bool := c = ' ' ∨ c = '\t' ∨ c = '\n' ∨ c = '\r'

/-- Model of `s.strip()`. -/
def pyStrip (s : String) : String :=
  ⟨((s.data.dropWhile isSpaceChar).reverse.dropWhile isSpaceChar).reverse⟩

/-- Last `/`-separated component, as `s.split('/')[-1]`. -/
def lastComponent (s : String) : String := ⟨(splitOnChar '/' s.data).getLastD []⟩

/-- Model of `os.path.basename` for the forward-slash paths the code uses. -/
def basename (s : String) : String := lastComponent s

/-- Model of `os.path.join` for two components (the code never joins
absolute second components). -/
def joinPath (a b : String) : String := a ++ "/" ++ b

/-! ## Data model: timeline items and the filesystem environment -/

/-- A timeline item as the loosely-typed dict the renderer receives: every
key the modelled code reads is an optional field (`none` = key absent).
Fields the modelled pipeline never reads (`timelineId`, `id`,
`thumbnail_url`, `startTime`, `endTime`, `confidence`, `vibe`, `reason`,
`scores`) are omitted. -/
structure TLItem where
  type? : Option String := none
  name? : Option String := none
  url? : Option String := none
  text? : Option String := none
  clip_url? : Option String := none
  clip_filename? : Option String := none
  file_path? : Option String := none
  duration? : Option String := none
  deriving Repr, DecidableEq

/-- Python truthiness of an optional string value. -/
def truthy (o : Option String) : Bool := o.getD "" ≠ ""

/-- The filesystem and media-probe environment: `os.path.exists`, the
ffprobe resolution query of `preprocess_timeline_items`, the
`_get_video_duration` probe (which returns `0.0` on failure), the
`get_video_props` probe of `_concatenate_clips` (abstracted as total
because the code runs it with `check=True` and any failure aborts the
render), and the `has_audio` probe. -/
structure FsEnv where
  pathExists : String → Bool
  probeRes : String → Option (Nat × Nat)
  videoDuration : String → ℚ
  videoProps : String → Nat × Nat × ℚ × String
  hasAudio : String → Bool

/-- Shared clip store directory (`os.path.join(os.getcwd(), "generated_clips")`);
the cwd component is abstracted away. -/
def clipsDir : String := "generated_clips"

/-- Repository root (`os.path.abspath(os.path.join(os.path.dirname(__file__), '../../../..'))`),
abstracted to a constant. -/
def projectRoot : String := "PROJECT_ROOT"

/-- Image filename extensions recognised by the type inference. -/
def imageExts : List String := [".jpg", ".jpeg", ".png"]

/-- The fixed fallback blank asset
(`os.path.join(project_root, 'titan/public/assets/bg', 'black.jpg')`). -/
def blackJpg : String := joinPath (joinPath projectRoot "titan/public/assets/bg") "black.jpg"

/-- Local directory for uploaded images
(`os.path.join(project_root, 'titan', 'public', 'assets', 'images', ...)`). -/
def imagesDirLocal : String :=
  joinPath (joinPath (joinPath (joinPath projectRoot "titan") "public") "assets") "images"

/-! ## Segment materializer (`preprocess_timeline_items`, lines 59-198) -/

/-- Type of a timeline item after the inference of lines 94-107: an explicit
truthy `type` wins; otherwise an image extension on `name`/`url` infers
`image`, a truthy `text` field infers `text`, a truthy `clip_url` infers
`clip`; anything else is unresolvable (the item is skipped). -/
def inferType (item : TLItem) : Option String :=
  if truthy item.type? then item.type?
  else
    let name := pyLower (item.name?.getD "")
    let url := pyLower (item.url?.getD "")
    if imageExts.any (fun ext => strEnds name ext || strEnds url ext) then some "image"
    else if truthy item.text? then some "text"
    else if truthy item.clip_url? then some "clip"
    else none

/-- Clip filename resolution shared by the resolution-detection loop (lines
69-73) and `_prepare_concat_list` (lines 344-349): an explicit truthy
`clip_filename`, else the last path component of a `clip_url` under
`/api/v1/process/clips/`. -/
def clipFilenameOf (item : TLItem) : Option String :=
  let cu := item.clip_url?.getD ""
  let cf0 := item.clip_filename?.getD ""
  let cf := if cf0 = "" ∧ strStarts cu "/api/v1/process/clips/" then lastComponent cu else cf0
  if cf = "" then none else some cf

/-- Rendering of a probe result as the `f"{w}x{h}"` resolution string. -/
def resolutionString (w h : Nat) : String := toString w ++ "x" ++ toString h

/-- Target-resolution detection loop of `preprocess_timeline_items` (lines
64-91): scan the raw items in order; for each item whose explicit `type`
field equals `'clip'`, resolve its filename and, if the file exists and
ffprobe succeeds, return that resolution; otherwise keep scanning; fall
back to `"1280x720"`. Note the loop tests `item.get('type') == 'clip'`
literally, so items whose clip type is merely inferred are not consulted. -/
def detect_target_resolution (env : FsEnv) : List TLItem → String
  | [] => "1280x720"
  | item :: rest =>
    if item.type?.getD "" = "clip" then
      match clipFilenameOf item with
      | some f =>
        let p := joinPath clipsDir f
        if env.pathExists p then
          match env.probeRes p with
          | some (w, h) => resolutionString w h
          | none => detect_target_resolution env rest
        else detect_target_resolution env rest
      | none => detect_target_resolution env rest
    else detect_target_resolution env rest

/-- Image source resolution of the `image` branch (lines 127-146):
`url or file_path`, else a name-derived `/assets/images/` path; an
`/assets/images/` path is mapped into the local images directory and falls
back to the blank asset when missing; any other path falls back to the
blank asset when missing. -/
def resolveImagePath (env : FsEnv) (item : TLItem) : String :=
  let ip0 : String :=
    let u := item.url?.getD ""
    if u ≠ "" then u else item.file_path?.getD ""
  let ip1 : String :=
    if ip0 = "" then
      let name := item.name?.getD ""
      if imageExts.any (fun ext => strEnds (pyLower name) ext) then
        "/assets/images/" ++ pyLower (pyStrip name)
      else ""
    else ip0
  if ip1 ≠ "" ∧ strStarts ip1 "/assets/images/" then
    let f := pyLower (pyStrip (basename ip1))
    let localPath := joinPath imagesDirLocal f
    if env.pathExists localPath then localPath else blackJpg
  else if ip1 = "" ∨ ¬ env.pathExists ip1 then blackJpg
  else ip1

/-- Text content resolution of the `text` branch (lines 170-173):
`item.get('text', item.get('name', ''))` with fallback `'Untitled'`. -/
def resolveText (item : TLItem) : String :=
  let t := match item.text? with
    | some s => s
    | none => item.name?.getD ""
  if t = "" then "Untitled" else t

/-- Model of `int(item.get('duration', 3))` in the image/text branches. -/
def pyIntDuration (item : TLItem) : Except String ℤ :=
  match item.duration? with
  | none => .ok 3
  | some s =>
    match pyIntOfString s with
    | some d => .ok d
    | none => .error ("invalid literal for int() with base 10: " ++ s)

/-- The dict appended for a `clip` item (lines 111-125). It carries no
`type` and no `text` key. -/
def processedClip (idx : Nat) (item : TLItem) : TLItem :=
  { type? := none
    name? := some (item.name?.getD ("Clip " ++ toString (idx + 1)))
    url? := none
    text? := none
    clip_url? := some (item.clip_url?.getD "")
    clip_filename? := item.clip_filename?
    file_path? := none
    duration? := some (item.duration?.getD "3") }

/-- The dict appended for a synthesized `image`/`text` item (lines 154-168
and 181-195). It also carries no `type` and no `text` key. -/
def processedSynth (kindName : String) (idx : Nat) (item : TLItem) (durStr fn : String) : TLItem :=
  { type? := none
    name? := some (item.name?.getD (kindName ++ " " ++ toString (idx + 1)))
    url? := none
    text? := none
    clip_url? := some ("/api/v1/process/clips/" ++ fn)
    clip_filename? := some fn
    file_path? := none
    duration? := some durStr }

/-- One output of the materializer: the processed dict plus the side
effects recorded for the claims (the synthesis source/text, the resolution
handed to the synthesizer, and the filename copied into the clip store). -/
structure PEntry where
  item : TLItem
  synthSource? : Option String := none
  synthText? : Option String := none
  synthResolution? : Option String := none
  copiedFile? : Option String := none
  deriving Repr, DecidableEq

/-- Main loop of `preprocess_timeline_items` (lines 92-198) over the
enumerated items: clip items are repackaged; image/text items are
synthesized at the target resolution (external synthesis assumed to
succeed) and copied into the clip store; unresolvable items are skipped. -/
def preprocessGo (env : FsEnv) (target : String) :
    List (Nat × TLItem) → Except String (List PEntry)
  | [] => .ok []
  | (idx, item) :: rest =>
    match inferType item with
    | some t =>
      if t = "clip" then
        match preprocessGo env target rest with
        | .ok entries => .ok ({ item := processedClip idx item } :: entries)
        | .error e => .error e
      else if t = "image" then
        match pyIntDuration item with
        | .error e => .error e
        | .ok d =>
          let src := resolveImagePath env item
          let fn := "image_" ++ toString idx ++ ".mp4"
          match preprocessGo env target rest with
          | .ok entries =>
            .ok ({ item := processedSynth "Image" idx item (pyStrOfInt d) fn
                   synthSource? := some src
                   synthResolution? := some target
                   copiedFile? := some fn } :: entries)
          | .error e => .error e
      else if t = "text" then
        match pyIntDuration item with
        | .error e => .error e
        | .ok d =>
          let txt := resolveText item
          let fn := "text_" ++ toString idx ++ ".mp4"
          match preprocessGo env target rest with
          | .ok entries =>
            .ok ({ item := processedSynth "Text" idx item (pyStrOfInt d) fn
                   synthText? := some txt
                   synthResolution? := some target
                   copiedFile? := some fn } :: entries)
          | .error e => .error e
      else preprocessGo env target rest
    | none => preprocessGo env target rest

/-- Embedding of `preprocess_timeline_items`: detect the target resolution
up front, then materialize every item in order. -/
def preprocess_timeline_items (env : FsEnv) (items : List TLItem) :
    Except String (List PEntry) :=
  preprocessGo env (detect_target_resolution env items) items.enum

/-! ## Mute/Play regions (`render_timeline_video`, lines 266-279) -/

/-- Time interval `{'start': ..., 'end': ...}` (the `end` key is called
`stop` here because `end` is reserved in Lean). -/
structure Region where
  start : ℚ
  stop : ℚ
  deriving Repr, DecidableEq

/-- Walk of the processed items accumulating elapsed time: an item whose
`type` key equals `'clip'` contributes a mute region, one whose `type` is
`'image'`/`'text'` — or with falsy `type` but truthy `text` — contributes a
play region; any other item only advances the clock. -/
def computeRegionsGo : List TLItem → ℚ → Except String (List Region × List Region)
  | [], _ => .ok ([], [])
  | item :: rest, t =>
    match parse_duration (match item.duration? with | some s => .str s | none => .num 3) with
    | .error e => .error e
    | .ok d =>
      match computeRegionsGo rest (t + d) with
      | .error e => .error e
      | .ok (mr, pr) =>
        if item.type? = some "clip" then
          .ok ({ start := t, stop := t + d } :: mr, pr)
        else if item.type? = some "image" ∨ item.type? = some "text" ∨
            (¬ truthy item.type? ∧ truthy item.text?) then
          .ok (mr, { start := t, stop := t + d } :: pr)
        else .ok (mr, pr)

/-- Mute/play regions of a processed timeline, from time 0. -/
def computeRegions (processed : List TLItem) : Except String (List Region × List Region) :=
  computeRegionsGo processed 0

/-! ## Audio mixer (`_add_bgm_and_sfx_with_mute`, lines 552-617, and the
uncalled `_add_bgm_and_sfx`, lines 497-550) -/

/-- A sound-effect event `{"path": str, "delay_ms": int}`. -/
structure SfxItem where
  path? : Option String := none
  delay_ms : ℤ := 0
  deriving Repr, DecidableEq

/-- Value of the ffmpeg expression `between(t,a,b)`: 1 when `a ≤ t ≤ b`
(bounds inclusive), else 0. -/
def betweenVal (t a b : ℚ) : ℚ := if a ≤ t ∧ t ≤ b then 1 else 0

/-- Value at time `t` of the ducking expression
`'+'.join(f'between(t,{r["start"]},{r["end"]})' for r in mute_regions)`
(line 571): the sum of the between terms. -/
def duckingExprVal (rs : List Region) (t : ℚ) : ℚ :=
  (rs.map (fun r => betweenVal t r.start r.stop)).sum

/-- Value at time `t` of the volume automation
`volume=if(<ducking_expr>, 0.2, 1.0)` (line 572): ffmpeg `if(c,x,y)` yields
`x` when `c` is non-zero. `0.2` is the rational `1/5`. -/
def volumeExprVal (rs : List Region) (t : ℚ) : ℚ :=
  if duckingExprVal rs t ≠ 0 then 1/5 else 1

/-- Structured form of the audio `filter_complex` parts the two mixer
functions build; each constructor abbreviates the exact ffmpeg filter
string quoted in its comment. -/
inductive AFilter
  | volumeDucking (regions : List Region)
  | amergeDucked
  | amergeFull
  | bgmLoop
  | sfxDelay (inputIdx : Nat) (delayMs : ℤ) (i : Nat)
  | amix (inputs : Nat)
  deriving Repr, DecidableEq
/- volumeDucking rs : "[1:a]volume=if(<ducking_expr rs>, 0.2, 1.0)[bgm_ducked]"
   amergeDucked     : "[0:a][bgm_ducked]amerge=inputs=2[aout]"
   amergeFull       : "[0:a][1:a]amerge=inputs=2[aout]"
   bgmLoop          : "[1]aloop=loop=-1:size=2e+09,asetpts=N/SR/TB[bgm]"
   sfxDelay k d i   : "[k]adelay=d|d[sfxi]"
   amix n           : "<inputs>amix=inputs=n:duration=longest[aout]" -/

/-- Output of a mixer invocation: a plain `-c copy` passthrough (no BGM),
or the ffmpeg inputs, filter parts and audio map label. -/
inductive MixPlan
  | copyOnly
  | mix (inputArgs : List String) (filterParts : List AFilter) (mapAudio : String)
  deriving Repr, DecidableEq

/-- Embedding of `_add_bgm_and_sfx_with_mute` (lines 552-617). Without an
existing BGM file the video is copied through. With one, the BGM is added
with `-stream_loop -1` (indefinitely looped); a non-empty `mute_regions`
list produces the ducking volume filter plus an `amerge` of the primary
audio with the ducked BGM, an empty one produces a full-volume `amerge`.
The `sfx_list` parameter is accepted but never read — exactly as in the
source, where the function body never mentions it. -/
def add_bgm_and_sfx_with_mute (env : FsEnv) (video_path : String)
    (bgm_path? : Option String) (sfx_list : List SfxItem)
    (mute_regions : List Region) : MixPlan :=
  if ¬ (truthy bgm_path? ∧ env.pathExists (bgm_path?.getD "")) then .copyOnly
  else
    let inputArgs := ["-i", video_path, "-stream_loop", "-1", "-i", bgm_path?.getD ""]
    if mute_regions ≠ [] then
      .mix inputArgs [.volumeDucking mute_regions, .amergeDucked] "[aout]"
    else
      .mix inputArgs [.amergeFull] "[aout]"

/-- Sound-effect loop of the legacy `_add_bgm_and_sfx` (lines 509-517):
effects with a falsy or missing path are skipped; each surviving effect
contributes an input, an `adelay` filter and an amix input. -/
def legacySfxGo (env : FsEnv) : List (Nat × SfxItem) → Nat → List String × List AFilter × Nat
  | [], _ => ([], [], 0)
  | (i, sfx) :: rest, idx =>
    let p := sfx.path?.getD ""
    if p = "" ∨ ¬ env.pathExists p then legacySfxGo env rest idx
    else
      let (args, filters, cnt) := legacySfxGo env rest (idx + 1)
      (["-i", p] ++ args, .sfxDelay idx sfx.delay_ms i :: filters, cnt + 1)

/-- Embedding of the legacy `_add_bgm_and_sfx` (lines 497-550), which does
mix sound effects in; `render_timeline_video` never calls it. -/
def add_bgm_and_sfx (env : FsEnv) (video_path : String)
    (bgm_path? : Option String) (sfx_list : List SfxItem) : List String × List AFilter :=
  let hasBgm := truthy bgm_path? ∧ env.pathExists (bgm_path?.getD "")
  let bgmArgs := if hasBgm then ["-i", bgm_path?.getD ""] else []
  let bgmFilters : List AFilter := if hasBgm then [.bgmLoop] else []
  let startIdx := if hasBgm then 2 else 1
  let (sfxArgs, sfxFilters, cnt) := legacySfxGo env sfx_list.enum startIdx
  let n := 1 + (if hasBgm then 1 else 0) + cnt
  (["-i", video_path] ++ bgmArgs ++ sfxArgs, bgmFilters ++ sfxFilters ++ [.amix n])

/-! ## Stream normalizer and concatenation engine (`_concatenate_clips`,
lines 366-477) -/

/-- Probed properties of a video file (`get_video_props`, lines 376-382). -/
structure VProps where
  width : Nat
  height : Nat
  fps : ℚ
  pix : String
  deriving Repr, DecidableEq

/-- Reading of the environment's probe as a `VProps`. -/
def getVideoProps (env : FsEnv) (p : String) : VProps :=
  let (w, h, fps, pix) := env.videoProps p
  { width := w, height := h, fps := fps, pix := pix }

/-- The per-segment re-encode command of the fix loop (lines 398-421):
`-vf scale={tw}:{th}:force_original_aspect_ratio=decrease,pad={tw}:{th}:(ow-iw)/2:(oh-ih)/2,setsar=1,fps={tfps}`
with `-pix_fmt` the target pixel format, audio kept (`-c:a aac`) exactly
when the input has an audio stream, else dropped (`-an`). -/
structure FixCmd where
  inPath : String
  scaleWidth : Nat
  scaleHeight : Nat
  padWidth : Nat
  padHeight : Nat
  fps : ℚ
  pixFmt : String
  keepAudio : Bool
  deriving Repr, DecidableEq

/-- Fix-stage commands: the target profile is probed from the first file in
the concat list, and every file (the first included) is re-encoded to it. -/
def fixCommands (env : FsEnv) (files : List String) : List FixCmd :=
  match files with
  | [] => []
  | f0 :: _ =>
    let t := getVideoProps env f0
    files.map (fun p =>
      { inPath := p
        scaleWidth := t.width
        scaleHeight := t.height
        padWidth := t.width
        padHeight := t.height
        fps := t.fps
        pixFmt := t.pix
        keepAudio := env.hasAudio p })

/-- Semantics of `scale=tw:th:force_original_aspect_ratio=decrease` over
exact rationals: shrink-to-fit with the scale factor `min(tw/w, th/h)`. -/
def scaleDecrease (w h tw th : ℚ) : ℚ × ℚ :=
  if w * th ≤ tw * h then (w * th / h, th) else (tw, h * tw / w)

/-- One input of the concatenation command: a re-encoded segment file, or a
synthetic silent source `-f lavfi -t <dur> -i anullsrc=...` (line 451). -/
inductive CInput
  | file (path : String)
  | silent (dur : ℚ)
  deriving Repr, DecidableEq

/-- The concatenation stream graph (lines 423-456) in structured form:
`videoChainIdx`/`audioChainIdx` list the input indices `i` of the
`[i:v:0]`/`[k:a:0]` labels in chain order; `hasAudioBranch` is false when
the audio concat branch is omitted (`num_audio_inputs == 0`). -/
structure ConcatPlan where
  inputs : List CInput
  videoChainIdx : List Nat
  audioChainIdx : List Nat
  hasAudioBranch : Bool
  deriving Repr, DecidableEq

/-- Audio-chain loop (lines 443-452): an audio-bearing segment at position
`i` is labelled with the running count `k` of audio-bearing segments seen
so far (`audio_input_idx`); a silent segment appends a synthetic input of
its probed duration and is labelled `n + i - k`. -/
def audioChainGo (env : FsEnv) (n : Nat) :
    List (Nat × String × Bool) → Nat → List Nat × List CInput
  | [], _ => ([], [])
  | (i, path, flag) :: rest, k =>
    if flag then
      let (idxs, ins) := audioChainGo env n rest (k + 1)
      (k :: idxs, ins)
    else
      let d := env.videoDuration path
      let (idxs, ins) := audioChainGo env n rest k
      ((n + i - k) :: idxs, .silent d :: ins)

/-- Embedding of the stream-graph construction of `_concatenate_clips`
(lines 423-456) over the fixed files and their audio flags (`flags` must
have the same length as `files`, as in the source where both are built by
the same loop). -/
def buildConcatPlan (env : FsEnv) (files : List String) (flags : List Bool) : ConcatPlan :=
  let n := files.length
  let numAudio := (flags.filter (fun b => b)).length
  if numAudio = 0 then
    { inputs := files.map .file
      videoChainIdx := List.range n
      audioChainIdx := []
      hasAudioBranch := false }
  else
    let (idxs, extra) := audioChainGo env n (files.zip flags).enum 0
    { inputs := files.map .file ++ extra
      videoChainIdx := List.range n
      audioChainIdx := idxs
      hasAudioBranch := true }

/-! ## Concat-list preparation and the rendering pipeline
(`_prepare_concat_list` lines 334-364, `render_timeline_video` lines
238-332, `render_project_video` lines 687-716) -/

/-- Filename resolution of `_prepare_concat_list` (lines 344-351): truthy
`clip_filename`, else the last component of a `/api/v1/process/clips/`
URL, else `ValueError` (the item index in the message is not modelled). -/
def prepareClipFilename (clip : TLItem) : Except String String :=
  let cf0 := clip.clip_filename?.getD ""
  if cf0 ≠ "" then .ok cf0
  else
    let cu := clip.clip_url?.getD ""
    if strStarts cu "/api/v1/process/clips/" then .ok (lastComponent cu)
    else .error "Cannot determine filename for clip"

/-- File existence after the materializer ran: either the file existed
up front or the materializer copied it into the clip store (`written` is
the list of paths written during preprocessing). -/
def effExists (env : FsEnv) (written : List String) (p : String) : Bool :=
  env.pathExists p || written.contains p

/-- Embedding of `_prepare_concat_list`: resolve every processed item's
filename under the clip store and fail with `FileNotFoundError` on the
first missing file. -/
def prepare_concat_list (env : FsEnv) (written : List String) :
    List TLItem → Except String (List String)
  | [] => .ok []
  | clip :: rest =>
    match prepareClipFilename clip with
    | .error e => .error e
    | .ok f =>
      let p := joinPath clipsDir f
      if ¬ effExists env written p then .error ("Clip file not found: " ++ p)
      else
        match prepare_concat_list env written rest with
        | .ok ps => .ok (p :: ps)
        | .error e => .error e

/-- Observable outcome of a successful render: the regions computed for
the mixer, the concat-list files, the mixer plan (`none` when the
no-BGM `_finalize_video` branch ran) and the materializer entries. -/
structure RenderOutcome where
  muteRegions : List Region
  playRegions : List Region
  concatFiles : List String
  mixPlan : Option MixPlan
  entries : List PEntry
  deriving Repr, DecidableEq

/-- Body of the `try` block of `render_timeline_video` (lines 263-329):
materialize, compute mute/play regions, prepare the concat list (an empty
list of files then fails inside `_concatenate_clips` with `IndexError`,
line 392), then either mix BGM/SFX (when a BGM path is given and exists)
or finalize as-is. External ffmpeg invocations are assumed to succeed. -/
def render_timeline_core (env : FsEnv) (timeline_clips : List TLItem)
    (bgm_file_path? : Option String) (sfx_list : List SfxItem) :
    Except String RenderOutcome :=
  match preprocess_timeline_items env timeline_clips with
  | .error e => .error e
  | .ok entries =>
    let processed := entries.map (fun en => en.item)
    match computeRegions processed with
    | .error e => .error e
    | .ok (mr, pr) =>
      let written := (entries.filterMap (fun en => en.copiedFile?)).map (joinPath clipsDir)
      match prepare_concat_list env written processed with
      | .error e => .error e
      | .ok files =>
        if files = [] then .error "list index out of range"
        else
          let mixPlan :=
            if truthy bgm_file_path? ∧ env.pathExists (bgm_file_path?.getD "") then
              some (add_bgm_and_sfx_with_mute env "concatenated_video.mp4"
                bgm_file_path? sfx_list mr)
            else none
          .ok { muteRegions := mr
                playRegions := pr
                concatFiles := files
                mixPlan := mixPlan
                entries := entries }

/-- Embedding of `render_timeline_video`: the empty-timeline `ValueError`
is raised before the `try` block (line 257-258) and therefore propagates
unwrapped; every error inside the block is wrapped as
`"Video rendering failed: ..."` (line 332). -/
def render_timeline_video (env : FsEnv) (timeline_clips : List TLItem)
    (bgm_file_path? : Option String) (sfx_list : List SfxItem) :
    Except String RenderOutcome :=
  if timeline_clips = [] then .error "No clips provided for rendering"
  else
    match render_timeline_core env timeline_clips bgm_file_path? sfx_list with
    | .ok r => .ok r
    | .error e => .error ("Video rendering failed: " ++ e)

/-- The `timeline_data` dict handed to `render_project_video`. -/
structure TimelineData where
  timeline_clips : List TLItem := []
  bgm_path? : Option String := none
  sfx_list : List SfxItem := []

/-- Embedding of `VideoRenderingManager.render_project_video` (lines
687-716): empty-timeline check before the `try` block, and every error
wrapped as `"Project video rendering failed: ..."`. -/
def render_project_video (env : FsEnv) (data : TimelineData) :
    Except String RenderOutcome :=
  if data.timeline_clips = [] then .error "No clips in timeline to render"
  else
    match render_timeline_video env data.timeline_clips data.bgm_path? data.sfx_list with
    | .ok r => .ok r
    | .error e => .error ("Project video rendering failed: " ++ e)

/-! ## Job orchestration (routes/process.py) -/

/-- A job record (`ProcessingStatus` / `RenderStatus`, lines 114-120 and
162-168), parametric in the result payload. -/
structure JobRec (α : Type) where
  job_id : String
  status : String
  progress : ℚ
  current_step : String
  result? : Option α := none
  error? : Option String := none
  deriving Repr, DecidableEq

/-- Dictionary lookup in the in-memory job registry. -/
def regGet {α : Type} (jobs : List (String × JobRec α)) (id : String) : Option (JobRec α) :=
  (jobs.find? (fun kv => kv.1 = id)).map (fun kv => kv.2)

/-- An HTTP-level response: a payload or an `HTTPException(code, msg)`. -/
inductive Resp (α : Type)
  | ok (v : α)
  | httpError (code : Nat) (msg : String)
  deriving Repr, DecidableEq

/-- Embedding of `get_processing_result` (lines 338-348): 404 for an
unknown id, 400 for a job not in `completed` status, else the result. -/
def get_processing_result {α : Type} (jobs : List (String × JobRec α)) (id : String) :
    Resp (Option α) :=
  match regGet jobs id with
  | none => .httpError 404 "Job not found"
  | some j =>
    if j.status ≠ "completed" then
      .httpError 400 ("Job not completed (status: " ++ j.status ++ ")")
    else .ok j.result?

/-- Embedding of `get_render_result` (lines 841-851), identical in shape. -/
def get_render_result {α : Type} (jobs : List (String × JobRec α)) (id : String) :
    Resp (Option α) :=
  match regGet jobs id with
  | none => .httpError 404 "Render job not found"
  | some j =>
    if j.status ≠ "completed" then
      .httpError 400 ("Render job not completed (status: " ++ j.status ++ ")")
    else .ok j.result?

/-- Embedding of `delete_job` (lines 669-676): delete the record and
report ok, or 404 when the id is absent; returns the updated registry. -/
def delete_job {α : Type} (jobs : List (String × JobRec α)) (id : String) :
    List (String × JobRec α) × Resp String :=
  if (regGet jobs id).isSome then
    (jobs.eraseP (fun kv => kv.1 = id), .ok "Job deleted")
  else (jobs, .httpError 404 "Job not found")

/-- Job submission for `/render-timeline` (lines 815-831): the record is
created with status `"rendering"` (the render-job counterpart of the
spec's `running`) at progress 0 and the job id is returned immediately,
before the background task runs. -/
def submit_render {α : Type} (jobs : List (String × JobRec α)) (job_id : String) :
    List (String × JobRec α) × String :=
  ((job_id, { job_id := job_id
              status := "rendering"
              progress := 0
              current_step := "preparing" }) :: jobs, job_id)

/-- Progress values written by `render_timeline_background` (lines
925-968), in order: 0 at creation, then 10 (`initializing`), 25, 50
(`stitching_clips`) — all before the awaited `render_project_video` call —
and 100 on success; on failure no further progress write happens. -/
def renderWorkerProgressTrace (outcome : Except String RenderOutcome) : List ℚ :=
  [(0 : ℚ), 10, 25, 50] ++ (match outcome with | .ok _ => [(100 : ℚ)] | .error _ => [])

/-- Final job record written by `render_timeline_background`: `completed`
at 100 with the result, or `failed` with the error string and the progress
frozen at the last written value (50, since every progress write precedes
the pipeline call). -/
def renderWorkerFinal (job_id : String) (outcome : Except String RenderOutcome) :
    JobRec RenderOutcome :=
  match outcome with
  | .ok r =>
    { job_id := job_id, status := "completed", progress := 100
      current_step := "completed", result? := some r }
  | .error e =>
    { job_id := job_id, status := "failed", progress := 50
      current_step := "failed", error? := some e }

/-- Progress reported by the transcription callback of
`process_video_pipeline` (lines 452-455): `20 + (current/total) * 60`. -/
def transcriptionProgress (total : Nat) (c : Nat) : ℚ :=
  20 + ((c : ℚ) / (total : ℚ)) * 60

/-- Progress values written by `process_video_pipeline` (lines 415-505):
0 at creation, 10 (`saving_file`), 20 (`transcribing`), then one callback
per finished chunk reporting `index + 1` of that chunk (`completions` is
the order in which chunk indices finish; `transcribe_chunks` runs up to 3
chunks concurrently, so this need not be ascending), then 85 and 95 when
vibe analysis is included, and 100 on success; on failure no further
progress write happens. -/
def processWorkerProgressTrace (includeVibe : Bool) (total : Nat)
    (completions : List Nat) (outcome : Except String Unit) : List ℚ :=
  [(0 : ℚ), 10, 20] ++ completions.map (transcriptionProgress total) ++
    (match outcome with
     | .ok _ => (if includeVibe then [(85 : ℚ), 95] else []) ++ [(100 : ℚ)]
     | .error _ => [])

/-! ## Example fixtures for concrete evaluations -/

/-- Example environment: the clip store holds `a.mp4` (640x360), and
`bgm.mp3` and `s.wav` exist; every probed duration is 3 seconds. -/
def exEnv : FsEnv :=
  { pathExists := fun p => p = "generated_clips/a.mp4" ∨ p = "bgm.mp3" ∨ p = "s.wav"
    probeRes := fun p => if p = "generated_clips/a.mp4" then some (640, 360) else none
    videoDuration := fun _ => 3
    videoProps := fun _ => (640, 360, 25, "yuv420p")
    hasAudio := fun _ => false }

/-- Environment in which no file exists at all. -/
def exEnvEmpty : FsEnv :=
  { pathExists := fun _ => false
    probeRes := fun _ => none
    videoDuration := fun _ => 0
    videoProps := fun _ => (1280, 720, 25, "yuv420p")
    hasAudio := fun _ => false }

/-- An explicitly-typed clip item whose file exists in `exEnv`. -/
def exClipItem : TLItem :=
  { type? := some "clip", name? := some "c", clip_filename? := some "a.mp4"
    duration? := some "3" }

/-- A clip item with no explicit `type` field (its kind is inferred from
`clip_url`), whose file exists in `exEnv`. -/
def exNoTypeClip : TLItem :=
  { clip_url? := some "/api/v1/process/clips/a.mp4", duration? := some "3" }

/-- An image item whose uploaded file does not exist in any example
environment. -/
def exImageMissing : TLItem :=
  { type? := some "image", name? := some "p.jpg", url? := some "/assets/images/p.jpg"
    duration? := some "4" }

/-! ## Claims -/

/-- C1: the claim says that walking the processed segments accumulates a
MuteRegion for every segment whose underlying item was a Clip, so that a
timeline with at least one Clip item hands the audio mixer a non-empty
mute-region list. The code violates this: `preprocess_timeline_items`
appends processed dicts without a `type` (or `text`) key, so the region
walk of `render_timeline_video` (lines 270-279) never classifies any
segment and always passes `mute_regions = []` to the mixer. This theorem
evaluates the pipeline at a timeline consisting of one existing Clip item:
the render succeeds, yet the mute-region list is empty and the mixer takes
its no-ducking (`amergeFull`) branch. -/
theorem c1_clip_timeline_has_no_mute_regions :
    exClipItem.type? = some "clip"
    ∧ (render_timeline_video exEnv [exClipItem] (some "bgm.mp3") []).map
        (fun out => (out.muteRegions, out.mixPlan))
      = .ok ([], some (.mix ["-i", "concatenated_video.mp4", "-stream_loop", "-1", "-i", "bgm.mp3"]
          [.amergeFull] "[aout]")) := by
  exact ⟨rfl, rfl⟩

/-- C2: the claim says that a render with background music and a non-empty
`sfx_list` time-shifts each existing-file sound effect by its `delay_ms`
and mixes it in as an additional input, skipping missing files. The code
violates this: the BGM branch of `render_timeline_video` calls
`_add_bgm_and_sfx_with_mute`, whose body never reads its `sfx_list`
parameter, so no sound effect is ever an input of the mix. This theorem
evaluates the mixer at a BGM plus one existing sound effect: the plan
contains only the video and BGM inputs and only the ducking/merge filters,
whereas the uncalled legacy `_add_bgm_and_sfx` would have added the
`s.wav` input with an `adelay=500|500` filter. -/
theorem c2_sfx_ignored_when_bgm_present :
    exEnv.pathExists "s.wav" = true
    ∧ add_bgm_and_sfx_with_mute exEnv "v.mp4" (some "bgm.mp3")
        [{ path? := some "s.wav", delay_ms := 500 }] [{ start := 0, stop := 3 }]
      = .mix ["-i", "v.mp4", "-stream_loop", "-1", "-i", "bgm.mp3"]
          [.volumeDucking [{ start := 0, stop := 3 }], .amergeDucked] "[aout]"
    ∧ add_bgm_and_sfx exEnv "v.mp4" (some "bgm.mp3")
        [{ path? := some "s.wav", delay_ms := 500 }]
      = (["-i", "v.mp4", "-i", "bgm.mp3", "-i", "s.wav"],
         [.bgmLoop, .sfxDelay 2 500 0, .amix 3]) := by
  refine ⟨by decide, by decide, by decide⟩

/-- C3: the claim says the audio chain references, in segment order, each
audio-bearing segment's own audio stream, with fresh silent inputs for the
others. The code violates the first part: the chain labels an audio-bearing
segment at position `i` with `audio_input_idx` (the count of audio-bearing
segments seen so far) instead of `i` (line 446). This theorem evaluates the
graph construction for two segments where a silent segment precedes an
audio-bearing one: the silent segment correctly gets a synthetic input of
its probed duration at index 2, but the audio-bearing segment (input 1) is
labelled `[0:a:0]` — input 0, a file re-encoded with `-an` that has no
audio stream — and not its own `[1:a:0]`. -/
theorem c3_audio_chain_references_wrong_input :
    buildConcatPlan exEnv ["fixed_0.mp4", "fixed_1.mp4"] [false, true]
      = { inputs := [.file "fixed_0.mp4", .file "fixed_1.mp4", .silent 3]
          videoChainIdx := [0, 1]
          audioChainIdx := [2, 0]
          hasAudioBranch := true }
    ∧ (buildConcatPlan exEnv ["fixed_0.mp4", "fixed_1.mp4"] [false, true]).audioChainIdx
        ≠ [2, 1] := by
  refine ⟨by decide, by decide⟩

theorem betweenVal_nonneg (t a b : ℚ) : 0 ≤ betweenVal t a b := by
  unfold betweenVal
  split <;> norm_num

theorem duckingExprVal_nonneg (rs : List Region) (t : ℚ) : 0 ≤ duckingExprVal rs t := by
  induction rs with
  | nil => simp [duckingExprVal]
  | cons r rest ih =>
    unfold duckingExprVal at *
    simp only [List.map_cons, List.sum_cons]
    have := betweenVal_nonneg t r.start r.stop
    linarith

theorem duckingExprVal_ne_zero_iff (rs : List Region) (t : ℚ) :
    duckingExprVal rs t ≠ 0 ↔ ∃ r ∈ rs, r.start ≤ t ∧ t ≤ r.stop := by
  induction rs with
  | nil => simp [duckingExprVal]
  | cons r rest ih =>
    unfold duckingExprVal
    simp only [List.map_cons, List.sum_cons]
    constructor
    · intro h
      by_cases hb : r.start ≤ t ∧ t ≤ r.stop
      · exact ⟨r, List.mem_cons_self r rest, hb⟩
      · have hb0 : betweenVal t r.start r.stop = 0 := by
          unfold betweenVal
          rw [if_neg hb]
        rw [hb0, zero_add] at h
        obtain ⟨r2, hr2, hcond⟩ := ih.mp h
        exact ⟨r2, List.mem_cons_of_mem r hr2, hcond⟩
    · rintro ⟨r2, hr2, hcond⟩
      rcases List.mem_cons.mp hr2 with h1 | h2
      · subst h1
        have hb1 : betweenVal t r2.start r2.stop = 1 := by
          unfold betweenVal
          rw [if_pos hcond]
        have hrest := duckingExprVal_nonneg rest t
        unfold duckingExprVal at hrest
        rw [hb1]
        intro heq
        linarith
      · have hne : duckingExprVal rest t ≠ 0 := ih.mpr ⟨r2, h2, hcond⟩
        have hrest := duckingExprVal_nonneg rest t
        have hpos : 0 < duckingExprVal rest t := lt_of_le_of_ne hrest (Ne.symm hne)
        have hb0 := betweenVal_nonneg t r.start r.stop
        unfold duckingExprVal at hpos
        intro heq
        linarith

/-- C4: with background music present, a non-empty mute-region list makes
the mixer build the volume automation `if(<sum of between terms>, 0.2, 1.0)`
on the BGM input, whose value is 0.2 (= 1/5) exactly at the times lying
inside some mute region (bounds inclusive, per ffmpeg `between`) and 1.0 at
every other time; the BGM input is added with `-stream_loop -1`
(indefinitely looped) and merged with the primary audio. With an empty
mute-region list the BGM is merged at full volume with no volume filter in
the graph. -/
theorem c4_bgm_ducking_volume (env : FsEnv) (vp bgm : String) (sfx : List SfxItem)
    (rs : List Region) (hbgm : env.pathExists bgm = true) (hb : ¬ bgm = "") :
    (rs ≠ [] →
      add_bgm_and_sfx_with_mute env vp (some bgm) sfx rs
        = .mix ["-i", vp, "-stream_loop", "-1", "-i", bgm]
            [.volumeDucking rs, .amergeDucked] "[aout]")
    ∧ (∀ t : ℚ,
        (volumeExprVal rs t = 1/5 ↔ ∃ r ∈ rs, r.start ≤ t ∧ t ≤ r.stop)
        ∧ (volumeExprVal rs t = 1 ↔ ¬ ∃ r ∈ rs, r.start ≤ t ∧ t ≤ r.stop))
    ∧ (rs = [] →
      add_bgm_and_sfx_with_mute env vp (some bgm) sfx rs
        = .mix ["-i", vp, "-stream_loop", "-1", "-i", bgm] [.amergeFull] "[aout]") := by
  have ht : truthy (some bgm) = true := by simp [truthy, hb]
  have hgetD : (some bgm).getD "" = bgm := rfl
  refine ⟨?_, ?_, ?_⟩
  · intro hne
    unfold add_bgm_and_sfx_with_mute
    rw [if_neg (not_not_intro ⟨ht, by rw [hgetD]; exact hbgm⟩), if_pos hne]
    rfl
  · intro t
    have hiff := duckingExprVal_ne_zero_iff rs t
    by_cases h : duckingExprVal rs t = 0
    · have hnot : ¬ ∃ r ∈ rs, r.start ≤ t ∧ t ≤ r.stop := by
        rw [← hiff]
        simp [h]
      have hv : volumeExprVal rs t = 1 := by
        unfold volumeExprVal
        rw [if_neg (by simpa using h)]
      constructor
      · constructor
        · intro hv5
          rw [hv] at hv5
          norm_num at hv5
        · intro hex
          exact absurd hex hnot
      · constructor
        · intro _
          exact hnot
        · intro _
          exact hv
    · have hv : volumeExprVal rs t = 1/5 := by
        unfold volumeExprVal
        rw [if_pos h]
      have hex := hiff.mp h
      constructor
      · exact ⟨fun _ => hex, fun _ => hv⟩
      · constructor
        · intro hv1
          rw [hv] at hv1
          norm_num at hv1
        · intro hnot
          exact absurd hex hnot
  · intro he
    subst he
    unfold add_bgm_and_sfx_with_mute
    rw [if_neg (not_not_intro ⟨ht, by rw [hgetD]; exact hbgm⟩), if_neg (by simp)]
    rfl

/-- C4 witness: the theorem applied at a concrete BGM file and the single
mute region 0-3, evaluated at time 1 (inside the region). -/
theorem c4_bgm_ducking_volume_witness :
    add_bgm_and_sfx_with_mute exEnv "v.mp4" (some "bgm.mp3") [] [{ start := 0, stop := 3 }]
      = .mix ["-i", "v.mp4", "-stream_loop", "-1", "-i", "bgm.mp3"]
          [.volumeDucking [{ start := 0, stop := 3 }], .amergeDucked] "[aout]"
    ∧ volumeExprVal [{ start := 0, stop := 3 }] 1 = 1/5 := by
  have h := c4_bgm_ducking_volume exEnv "v.mp4" "bgm.mp3" []
    [{ start := 0, stop := 3 }] (by decide) (by decide)
  refine ⟨h.1 (by simp), ((h.2.1 1).1).mpr ?_⟩
  refine ⟨{ start := 0, stop := 3 }, by simp, by norm_num, by norm_num⟩

theorem regGet_eq_none_of_not_mem {α : Type} (jobs : List (String × JobRec α)) (id : String)
    (h : ¬ id ∈ jobs.map Prod.fst) : regGet jobs id = none := by
  induction jobs with
  | nil => rfl
  | cons kv rest ih =>
    rw [List.map_cons, List.mem_cons] at h
    push_neg at h
    unfold regGet
    rw [List.find?_cons_of_neg]
    · exact ih h.2
    · simp only [decide_eq_true_eq]
      exact fun heq => h.1 heq.symm

theorem regGet_eraseP_of_nodup {α : Type} (jobs : List (String × JobRec α)) (id : String)
    (hnd : (jobs.map Prod.fst).Nodup) :
    regGet (jobs.eraseP (fun kv => kv.1 = id)) id = none := by
  induction jobs with
  | nil => rfl
  | cons kv rest ih =>
    rw [List.map_cons, List.nodup_cons] at hnd
    by_cases h : kv.1 = id
    · rw [List.eraseP_cons_of_pos (by simpa using h)]
      apply regGet_eq_none_of_not_mem
      rw [← h]
      exact hnd.1
    · rw [List.eraseP_cons_of_neg (by simpa using h)]
      unfold regGet
      rw [List.find?_cons_of_neg]
      · exact ih hnd.2
      · simpa using h

/-- C7: get-result (both the analysis and the render variant) returns the
stored result exactly when the job's status is `completed`, an explicit
400 "not completed" error for a job in any other status (never a partial
result), and 404 for an id absent from the registry; delete-job reports
404 for an absent id, and for a present id removes the record (under the
registry invariant that ids are unique dictionary keys) and reports ok. -/
theorem c7_result_and_delete_endpoints {α : Type} (jobs : List (String × JobRec α)) (id : String) :
    (regGet jobs id = none →
      get_processing_result jobs id = .httpError 404 "Job not found"
      ∧ get_render_result jobs id = .httpError 404 "Render job not found"
      ∧ delete_job jobs id = (jobs, .httpError 404 "Job not found"))
    ∧ (∀ j, regGet jobs id = some j →
      (j.status = "completed" →
        get_processing_result jobs id = .ok j.result?
        ∧ get_render_result jobs id = .ok j.result?)
      ∧ (j.status ≠ "completed" →
        get_processing_result jobs id
          = .httpError 400 ("Job not completed (status: " ++ j.status ++ ")")
        ∧ get_render_result jobs id
          = .httpError 400 ("Render job not completed (status: " ++ j.status ++ ")"))
      ∧ ((jobs.map Prod.fst).Nodup →
        regGet (delete_job jobs id).1 id = none
        ∧ (delete_job jobs id).2 = .ok "Job deleted")) := by
  constructor
  · intro hnone
    refine ⟨?_, ?_, ?_⟩
    · unfold get_processing_result
      rw [hnone]
    · unfold get_render_result
      rw [hnone]
    · unfold delete_job
      rw [if_neg]
      simp [hnone]
  · intro j hsome
    refine ⟨?_, ?_, ?_⟩
    · intro hst
      constructor
      · unfold get_processing_result
        rw [hsome]
        simp [hst]
      · unfold get_render_result
        rw [hsome]
        simp [hst]
    · intro hst
      constructor
      · unfold get_processing_result
        rw [hsome]
        simp [hst]
      · unfold get_render_result
        rw [hsome]
        simp [hst]
    · intro hnd
      have hpres : (regGet jobs id).isSome = true := by rw [hsome]; rfl
      unfold delete_job
      rw [if_pos hpres]
      exact ⟨regGet_eraseP_of_nodup jobs id hnd, rfl⟩

/-- Registry fixture for the C7 witness: one completed job with a result,
one still-rendering job. -/
def exJobA : JobRec Nat :=
  { job_id := "a", status := "completed", progress := 100
    current_step := "completed", result? := some 7 }

/-- A running (not completed) job record. -/
def exJobB : JobRec Nat :=
  { job_id := "b", status := "rendering", progress := 50
    current_step := "stitching_clips" }

/-- The example registry. -/
def exJobs : List (String × JobRec Nat) := [("a", exJobA), ("b", exJobB)]

/-- C7 witness: the theorem applied to the concrete registry at a
completed id, a running id, an absent id, and a deletion. -/
theorem c7_result_and_delete_endpoints_witness :
    get_processing_result exJobs "a" = .ok (some 7)
    ∧ get_render_result exJobs "b" = .httpError 400 "Render job not completed (status: rendering)"
    ∧ get_processing_result exJobs "zzz" = .httpError 404 "Job not found"
    ∧ regGet (delete_job exJobs "a").1 "a" = none
    ∧ (delete_job exJobs "a").2 = .ok "Job deleted" := by
  have ha := (c7_result_and_delete_endpoints exJobs "a").2 exJobA (by decide)
  have hb := (c7_result_and_delete_endpoints exJobs "b").2 exJobB (by decide)
  have hz := (c7_result_and_delete_endpoints exJobs "zzz").1 (by decide)
  have hdel := ha.2.2 (by decide)
  exact ⟨(ha.1 rfl).1, (hb.2.1 (by decide)).2, hz.1, hdel.1, hdel.2⟩

theorem mem_of_mem_getLastQ {α : Type} {l : List α} {x : α} (h : x ∈ l.getLast?) : x ∈ l := by
  obtain ⟨hne, rfl⟩ := List.mem_getLast?_eq_getLast h
  exact List.getLast_mem hne

theorem transcriptionProgress_mono {total c c2 : Nat} (htot : 0 < total) (h : c ≤ c2) :
    transcriptionProgress total c ≤ transcriptionProgress total c2 := by
  unfold transcriptionProgress
  have ht : (0 : ℚ) < (total : ℚ) := by exact_mod_cast htot
  have hc : (c : ℚ) ≤ (c2 : ℚ) := by exact_mod_cast h
  gcongr

theorem transcriptionProgress_ge {total c : Nat} (htot : 0 < total) :
    20 ≤ transcriptionProgress total c := by
  unfold transcriptionProgress
  have ht : (0 : ℚ) < (total : ℚ) := by exact_mod_cast htot
  have h0 : (0 : ℚ) ≤ (c : ℚ) / total := by positivity
  linarith

theorem transcriptionProgress_le {total c : Nat} (htot : 0 < total) (h : c ≤ total) :
    transcriptionProgress total c ≤ 80 := by
  unfold transcriptionProgress
  have ht : (0 : ℚ) < (total : ℚ) := by exact_mod_cast htot
  have hc : (c : ℚ) ≤ (total : ℚ) := by exact_mod_cast h
  have h1 : (c : ℚ) / total ≤ 1 := by
    rw [div_le_one ht]
    exact hc
  nlinarith

theorem chain_process_trace (total : Nat) (completions : List Nat) (tail : List ℚ)
    (htot : 0 < total) (hle : ∀ c ∈ completions, c ≤ total)
    (hasc : List.Chain' (fun a b : Nat => a ≤ b) completions)
    (htail85 : ∀ y ∈ tail, (85 : ℚ) ≤ y)
    (hchainTail : List.Chain' (fun a b : ℚ => a ≤ b) tail) :
    List.Chain' (fun a b : ℚ => a ≤ b)
      ([0, 10, 20] ++ (completions.map (transcriptionProgress total) ++ tail)) := by
  have hmapLe : ∀ x ∈ completions.map (transcriptionProgress total), x ≤ 80 := by
    intro x hx
    obtain ⟨c, hc, rfl⟩ := List.mem_map.mp hx
    exact transcriptionProgress_le htot (hle c hc)
  have hmapGe : ∀ x ∈ completions.map (transcriptionProgress total), 20 ≤ x := by
    intro x hx
    obtain ⟨c, hc, rfl⟩ := List.mem_map.mp hx
    exact transcriptionProgress_ge htot
  have hchainMap : List.Chain' (fun a b : ℚ => a ≤ b)
      (completions.map (transcriptionProgress total)) := by
    rw [List.chain'_map]
    exact hasc.imp (fun a b (hab : a ≤ b) => transcriptionProgress_mono htot hab)
  rw [List.chain'_append]
  refine ⟨?_, ?_, ?_⟩
  · norm_num [List.chain'_cons]
  · rw [List.chain'_append]
    refine ⟨hchainMap, hchainTail, ?_⟩
    intro x hx y hy
    have hx80 := hmapLe x (mem_of_mem_getLastQ hx)
    have hy85 := htail85 y (List.mem_of_mem_head? hy)
    linarith
  · intro x hx y hy
    have hx20 : x = 20 := by
      simp at hx
      exact hx.symm
    have hy20 : (20 : ℚ) ≤ y := by
      have hmem := List.mem_of_mem_head? hy
      rcases List.mem_append.mp hmem with h1 | h2
      · exact hmapGe y h1
      · have := htail85 y h2
        linarith
    rw [hx20]
    exact hy20

theorem string_append_ne_empty (s t : String) (h : s.data ≠ []) : ¬ s ++ t = "" := by
  intro heq
  have hd : (s ++ t).data = ("" : String).data := by rw [heq]
  rw [String.data_append] at hd
  exact h (List.append_eq_nil.mp hd).1

theorem render_project_video_error_ne_empty (env : FsEnv) (data : TimelineData) (e : String)
    (h : render_project_video env data = .error e) : e ≠ "" := by
  unfold render_project_video at h
  by_cases hd : data.timeline_clips = []
  · rw [if_pos hd] at h
    have he : e = "No clips in timeline to render" := (Except.error.injEq _ _).mp h.symm
    rw [he]
    decide
  · rw [if_neg hd] at h
    cases hr : render_timeline_video env data.timeline_clips data.bgm_path? data.sfx_list with
    | ok r =>
      rw [hr] at h
      exact absurd h (by simp)
    | error e2 =>
      rw [hr] at h
      have := (Except.error.injEq _ _).mp h
      rw [← this]
      exact string_append_ne_empty "Project video rendering failed: " e2 (by decide)

/-- C8 counterexample: the claim says every subsequent progress update is
greater than or equal to the previous one. The analysis worker's
transcription callback reports `20 + 60 * (index+1)/total` for whichever
chunk just finished, and `transcribe_chunks` runs up to 3 chunks
concurrently (`asyncio.gather` under a `Semaphore(3)`), so chunks can
finish out of index order: with 2 chunks finishing in the order
`[2, 1]` the worker writes progress 80 and then 50 — a strictly
decreasing pair of updates. -/
theorem c8_counterexample :
    ¬ List.Chain' (fun a b : ℚ => a ≤ b)
        (processWorkerProgressTrace true 2 [2, 1] (.ok ())) := by
  have h1 : transcriptionProgress 2 2 = 80 := by
    unfold transcriptionProgress
    norm_num
  have h2 : transcriptionProgress 2 1 = 50 := by
    unfold transcriptionProgress
    norm_num
  have htr : processWorkerProgressTrace true 2 [2, 1] (.ok ())
      = [0, 10, 20, 80, 50, 85, 95, 100] := by
    unfold processWorkerProgressTrace
    rw [List.map_cons, List.map_cons, List.map_nil, h1, h2]
    rfl
  intro hch
  rw [htr] at hch
  simp only [List.chain'_cons] at hch
  have : (80 : ℚ) ≤ 50 := hch.2.2.2.1
  norm_num at this

/-- C8 (amended): a submitted render job is created in the `rendering`
status (the render-job spelling of the spec's `running`) at progress 0 and
its id is returned before the pipeline executes; the render worker's
progress updates (0, 10, 25, 50, then 100 on success) are non-decreasing;
the analysis worker's updates are non-decreasing provided the
transcription-chunk completion callbacks arrive in ascending index order —
with out-of-order completions (possible under the concurrency limit of 3)
progress may temporarily decrease, which is what the counterexample
records; after a failure the job is `failed`, its progress stays at the
last written value, and the error field is populated (non-empty for every
failure surfaced by `render_project_video`, whose wrapper prefixes a
non-empty message). -/
theorem c8_progress_amended {α : Type} (jobs : List (String × JobRec α)) (job_id : String)
    (outR : Except String RenderOutcome) (includeVibe : Bool) (total : Nat)
    (completions : List Nat) (outP : Except String Unit)
    (htot : 0 < total) (hle : ∀ c ∈ completions, c ≤ total)
    (hasc : List.Chain' (fun a b : Nat => a ≤ b) completions) :
    (submit_render jobs job_id).2 = job_id
    ∧ regGet (submit_render jobs job_id).1 job_id
        = some { job_id := job_id, status := "rendering", progress := 0
                 current_step := "preparing" }
    ∧ List.Chain' (fun a b : ℚ => a ≤ b) (renderWorkerProgressTrace outR)
    ∧ List.Chain' (fun a b : ℚ => a ≤ b)
        (processWorkerProgressTrace includeVibe total completions outP)
    ∧ (∀ e, outR = .error e →
        renderWorkerFinal job_id outR
          = { job_id := job_id, status := "failed", progress := 50
              current_step := "failed", error? := some e }
        ∧ (renderWorkerProgressTrace outR).getLast? = some 50)
    ∧ (∀ env data e, render_project_video env data = .error e → e ≠ "") := by
  refine ⟨rfl, by simp [submit_render, regGet], ?_, ?_, ?_, ?_⟩
  · cases outR with
    | ok r =>
      simp only [renderWorkerProgressTrace, List.chain'_cons]
      norm_num
    | error e =>
      simp only [renderWorkerProgressTrace, List.chain'_cons]
      norm_num
  · unfold processWorkerProgressTrace
    cases outP with
    | ok u =>
      cases includeVibe with
      | false =>
        refine chain_process_trace total completions _ htot hle hasc ?_ ?_
        · intro y hy
          simp only [if_false, Bool.false_eq_true, List.nil_append, List.mem_singleton] at hy
          rw [hy]
          norm_num
        · simp
      | true =>
        refine chain_process_trace total completions _ htot hle hasc ?_ ?_
        · intro y hy
          simp at hy
          rcases hy with h | h | h <;> rw [h] <;> norm_num
        · norm_num [List.chain'_cons]
    | error e =>
      refine chain_process_trace total completions [] htot hle hasc ?_ ?_
      · intro y hy
        simp at hy
      · simp
  · intro e he
    subst he
    exact ⟨rfl, rfl⟩
  · exact render_project_video_error_ne_empty

/-- C8 witness: the amended theorem applied at 3 in-order chunk
completions with vibe analysis, and at a failing render outcome. -/
theorem c8_progress_amended_witness :
    List.Chain' (fun a b : ℚ => a ≤ b)
      (processWorkerProgressTrace true 3 [1, 2, 3] (.ok ()))
    ∧ renderWorkerFinal "j" (.error "boom")
        = { job_id := "j", status := "failed", progress := 50
            current_step := "failed", error? := some "boom" } := by
  have h := c8_progress_amended ([] : List (String × JobRec Nat)) "j"
    (.error "boom") true 3 [1, 2, 3] (.ok ()) (by norm_num) (by decide)
    (by norm_num [List.chain'_cons])
  exact ⟨h.2.2.2.1, (h.2.2.2.2.1 "boom" rfl).1⟩

theorem preprocessGo_synthResolution (env : FsEnv) (target : String) :
    ∀ (el : List (Nat × TLItem)) (entries : List PEntry),
      preprocessGo env target el = .ok entries →
      ∀ en ∈ entries, en.synthResolution? = none ∨ en.synthResolution? = some target := by
  intro el
  induction el with
  | nil =>
    intro entries h en hen
    injection h with h2
    subst h2
    simp at hen
  | cons p rest ih =>
    obtain ⟨idx, item⟩ := p
    intro entries h en hen
    unfold preprocessGo at h
    cases hty : inferType item with
    | none =>
      rw [hty] at h
      exact ih entries h en hen
    | some t =>
      rw [hty] at h
      simp only [] at h
      by_cases h1 : t = "clip"
      · rw [if_pos h1] at h
        cases hrec : preprocessGo env target rest with
        | error e =>
          rw [hrec] at h
          exact absurd h (by simp)
        | ok es =>
          rw [hrec] at h
          injection h with h2
          subst h2
          rcases List.mem_cons.mp hen with he | he
          · subst he
            left
            rfl
          · exact ih es hrec en he
      · rw [if_neg h1] at h
        by_cases h2 : t = "image"
        · rw [if_pos h2] at h
          cases hd : pyIntDuration item with
          | error e =>
            rw [hd] at h
            exact absurd h (by simp)
          | ok d =>
            rw [hd] at h
            cases hrec : preprocessGo env target rest with
            | error e =>
              rw [hrec] at h
              exact absurd h (by simp)
            | ok es =>
              rw [hrec] at h
              injection h with h3
              subst h3
              rcases List.mem_cons.mp hen with he | he
              · subst he
                right
                rfl
              · exact ih es hrec en he
        · rw [if_neg h2] at h
          by_cases h3 : t = "text"
          · rw [if_pos h3] at h
            cases hd : pyIntDuration item with
            | error e =>
              rw [hd] at h
              exact absurd h (by simp)
            | ok d =>
              rw [hd] at h
              cases hrec : preprocessGo env target rest with
              | error e =>
                rw [hrec] at h
                exact absurd h (by simp)
              | ok es =>
                rw [hrec] at h
                injection h with h4
                subst h4
                rcases List.mem_cons.mp hen with he | he
                · subst he
                  right
                  rfl
                · exact ih es hrec en he
          · rw [if_neg h3] at h
            exact ih entries h en hen

/-- C5 counterexample: the claim says the target profile falls back to
1280x720 only when no Clip item exists or none can be probed. A timeline
whose only item is a Clip by the pipeline's own type inference (truthy
`clip_url`, no explicit `type` field) is skipped by the detection loop,
which tests `item.get('type') == 'clip'` literally: the item's file exists
and probes at 640x360, yet the detected target stays at the fallback. -/
theorem c5_counterexample :
    detect_target_resolution exEnv [exNoTypeClip] = "1280x720"
    ∧ inferType exNoTypeClip = some "clip"
    ∧ exEnv.pathExists (joinPath clipsDir "a.mp4") = true
    ∧ exEnv.probeRes (joinPath clipsDir "a.mp4") = some (640, 360)
    ∧ resolutionString 640 360 = "640x360" := by
  refine ⟨rfl, rfl, by decide, by decide, rfl⟩

/-- C5 (amended): the target profile is probed from the first item with an
explicit `type == 'clip'` field whose resolved file exists and probes
(falling back to 1280x720 when no explicitly-typed clip qualifies; items
whose clip kind is merely inferred are not consulted); every synthesized
image/text segment is rendered at that target resolution; every segment
entering concatenation is re-encoded with the aspect-ratio-preserving
`scale=...:force_original_aspect_ratio=decrease` plus centered `pad` to
the first segment's width, height, frame rate and pixel format; and the
scale step preserves the aspect ratio exactly while fitting inside the
target box (letterboxing, not stretching). -/
theorem c5_target_resolution_amended (env : FsEnv) (item : TLItem) (rest items : List TLItem)
    (f : String) (w h : Nat) (entries : List PEntry) (wq hq twq thq : ℚ) :
    detect_target_resolution env ([] : List TLItem) = "1280x720"
    ∧ (item.type?.getD "" ≠ "clip" →
        detect_target_resolution env (item :: rest) = detect_target_resolution env rest)
    ∧ (item.type?.getD "" = "clip" → clipFilenameOf item = some f →
        env.pathExists (joinPath clipsDir f) = true →
        env.probeRes (joinPath clipsDir f) = some (w, h) →
        detect_target_resolution env (item :: rest) = resolutionString w h)
    ∧ (preprocess_timeline_items env items = .ok entries →
        ∀ en ∈ entries, en.synthResolution? = none
          ∨ en.synthResolution? = some (detect_target_resolution env items))
    ∧ (∀ (files : List String) (cmd : FixCmd) (f0 : String) (rest2 : List String),
        files = f0 :: rest2 → cmd ∈ fixCommands env files →
          cmd.scaleWidth = (getVideoProps env f0).width
          ∧ cmd.scaleHeight = (getVideoProps env f0).height
          ∧ cmd.padWidth = (getVideoProps env f0).width
          ∧ cmd.padHeight = (getVideoProps env f0).height
          ∧ cmd.fps = (getVideoProps env f0).fps
          ∧ cmd.pixFmt = (getVideoProps env f0).pix)
    ∧ (0 < wq → 0 < hq → 0 < twq → 0 < thq →
        (scaleDecrease wq hq twq thq).1 * hq = (scaleDecrease wq hq twq thq).2 * wq
        ∧ (scaleDecrease wq hq twq thq).1 ≤ twq
        ∧ (scaleDecrease wq hq twq thq).2 ≤ thq) := by
  refine ⟨rfl, ?_, ?_, ?_, ?_, ?_⟩
  · intro hnc
    conv_lhs => rw [detect_target_resolution]
    rw [if_neg hnc]
  · intro ht hcf hex hpr
    simp [detect_target_resolution, ht, hcf, hex, hpr]
  · intro hpre
    unfold preprocess_timeline_items at hpre
    exact preprocessGo_synthResolution env (detect_target_resolution env items) items.enum
      entries hpre
  · intro files cmd f0 rest2 hfe hcmd
    subst hfe
    unfold fixCommands at hcmd
    obtain ⟨p, hp, rfl⟩ := List.mem_map.mp hcmd
    exact ⟨rfl, rfl, rfl, rfl, rfl, rfl⟩
  · intro hw hh htw hth
    unfold scaleDecrease
    by_cases hcmp : wq * thq ≤ twq * hq
    · rw [if_pos hcmp]
      refine ⟨?_, ?_, le_refl _⟩
      · field_simp
        ring
      · rw [div_le_iff hh]
        linarith
    · rw [if_neg hcmp]
      push_neg at hcmp
      refine ⟨?_, le_refl _, ?_⟩
      · field_simp
        ring
      · rw [div_le_iff hw]
        nlinarith

/-- C5 witness: the amended theorem applied to a concrete explicitly-typed
clip (the probed 640x360 becomes the target) and to letterboxing a
1920x1080 segment into a 640x360 box. -/
theorem c5_target_resolution_amended_witness :
    detect_target_resolution exEnv [exClipItem] = "640x360"
    ∧ (scaleDecrease 1920 1080 640 360).1 * 1080 = (scaleDecrease 1920 1080 640 360).2 * 1920 := by
  have hthm := c5_target_resolution_amended exEnv exClipItem [] [] "a.mp4" 640 360 []
    1920 1080 640 360
  constructor
  · have h3 := hthm.2.2.1 (by decide) (by decide) (by decide) (by decide)
    rw [h3]
    rfl
  · exact (hthm.2.2.2.2.2 (by norm_num) (by norm_num) (by norm_num) (by norm_num)).1

theorem snd_mem_of_mem_enumFrom {α : Type} :
    ∀ (l : List α) (n : Nat) (p : Nat × α), p ∈ l.enumFrom n → p.2 ∈ l := by
  intro l
  induction l with
  | nil =>
    intro n p hp
    simp [List.enumFrom] at hp
  | cons x xs ih =>
    intro n p hp
    rw [List.enumFrom_cons] at hp
    rcases List.mem_cons.mp hp with hh | hh
    · subst hh
      exact List.mem_cons_self _ _
    · exact List.mem_cons_of_mem _ (ih (n + 1) p hh)

theorem prepare_concat_list_error_of_missing (env : FsEnv) (written : List String) :
    ∀ (l : List TLItem),
      (∃ p ∈ l, (∃ e, prepareClipFilename p = .error e)
        ∨ ∃ f, prepareClipFilename p = .ok f
            ∧ effExists env written (joinPath clipsDir f) = false) →
      ∃ e2, prepare_concat_list env written l = .error e2 := by
  intro l
  induction l with
  | nil =>
    rintro ⟨p, hp, _⟩
    simp at hp
  | cons c rest ih =>
    rintro ⟨p, hp, hcond⟩
    rcases List.mem_cons.mp hp with rfl | hmem
    · rcases hcond with ⟨e, he⟩ | ⟨f, hok, hmiss⟩
      · exact ⟨e, by simp [prepare_concat_list, he]⟩
      · exact ⟨"Clip file not found: " ++ joinPath clipsDir f,
          by simp [prepare_concat_list, hok, hmiss]⟩
    · obtain ⟨e2, he2⟩ := ih ⟨p, hmem, hcond⟩
      cases hcf : prepareClipFilename c with
      | error e => exact ⟨e, by simp [prepare_concat_list, hcf]⟩
      | ok f =>
        cases hex : effExists env written (joinPath clipsDir f) with
        | false =>
          exact ⟨"Clip file not found: " ++ joinPath clipsDir f,
            by simp [prepare_concat_list, hcf, hex]⟩
        | true => exact ⟨e2, by simp [prepare_concat_list, hcf, hex, he2]⟩

theorem prepare_concat_list_ok (env : FsEnv) (written : List String) :
    ∀ (l : List TLItem),
      (∀ p ∈ l, ∃ f, prepareClipFilename p = .ok f
        ∧ effExists env written (joinPath clipsDir f) = true) →
      ∃ fs, prepare_concat_list env written l = .ok fs ∧ fs.length = l.length := by
  intro l
  induction l with
  | nil => exact fun _ => ⟨[], rfl, rfl⟩
  | cons c rest ih =>
    intro hall
    obtain ⟨f, hok, hex⟩ := hall c (List.mem_cons_self c rest)
    obtain ⟨fs, hfs, hlen⟩ := ih (fun p hp => hall p (List.mem_cons_of_mem c hp))
    refine ⟨joinPath clipsDir f :: fs, ?_, by simp [hlen]⟩
    simp [prepare_concat_list, hok, hex, hfs]

theorem computeRegionsGo_ok_of_pyStr :
    ∀ (l : List TLItem), (∀ p ∈ l, ∃ d : ℤ, p.duration? = some (pyStrOfInt d)) →
      ∀ t : ℚ, ∃ res, computeRegionsGo l t = .ok res := by
  intro l
  induction l with
  | nil => exact fun _ t => ⟨([], []), rfl⟩
  | cons c rest ih =>
    intro hall t
    obtain ⟨d, hd⟩ := hall c (List.mem_cons_self c rest)
    obtain ⟨⟨mr, pr⟩, hres⟩ := ih (fun p hp => hall p (List.mem_cons_of_mem c hp))
      (t + (d : ℚ))
    have hpd : parse_duration (match c.duration? with
        | some s => .str s
        | none => .num 3) = .ok (d : ℚ) := by
      rw [hd]
      exact parse_duration_pyStrOfInt d
    by_cases h1 : c.type? = some "clip"
    · exact ⟨({ start := t, stop := t + (d : ℚ) } :: mr, pr),
        by simp [computeRegionsGo, hpd, hres, h1]⟩
    · by_cases h2 : c.type? = some "image" ∨ c.type? = some "text"
        ∨ (¬ truthy c.type? ∧ truthy c.text?)
      · exact ⟨(mr, { start := t, stop := t + (d : ℚ) } :: pr),
          by simp only [computeRegionsGo, hpd, hres, if_neg h1, if_pos h2]⟩
      · exact ⟨(mr, pr),
          by simp only [computeRegionsGo, hpd, hres, if_neg h1, if_neg h2]⟩

theorem image_filename_ne_empty (idx : Nat) : ¬ ("image_" ++ toString idx ++ ".mp4") = "" := by
  intro h
  have hd : ("image_" ++ toString idx ++ ".mp4").data = ("" : String).data := by rw [h]
  simp only [String.data_append] at hd
  exact absurd (List.append_eq_nil.mp (List.append_eq_nil.mp hd).1).1 (by decide)

theorem text_filename_ne_empty (idx : Nat) : ¬ ("text_" ++ toString idx ++ ".mp4") = "" := by
  intro h
  have hd : ("text_" ++ toString idx ++ ".mp4").data = ("" : String).data := by rw [h]
  simp only [String.data_append] at hd
  exact absurd (List.append_eq_nil.mp (List.append_eq_nil.mp hd).1).1 (by decide)

/-- Shape of each materializer output for an image/text item: a non-empty
synthesized filename recorded both as the processed `clip_filename` and as
the copied file, and a duration that is the decimal print of an integer. -/
def SynthEntryShape (en : PEntry) : Prop :=
  ∃ fn, en.item.clip_filename? = some fn ∧ ¬ fn = "" ∧ en.copiedFile? = some fn
    ∧ ∃ d : ℤ, en.item.duration? = some (pyStrOfInt d)

theorem preprocessGo_entries_synth (env : FsEnv) (target : String) :
    ∀ (el : List (Nat × TLItem)) (entries : List PEntry),
      (∀ p ∈ el, inferType p.2 = some "image" ∨ inferType p.2 = some "text") →
      preprocessGo env target el = .ok entries →
      (∀ en ∈ entries, SynthEntryShape en) ∧ entries.length = el.length := by
  intro el
  induction el with
  | nil =>
    intro entries _ h
    injection h with h2
    subst h2
    exact ⟨fun en hen => absurd hen (by simp), rfl⟩
  | cons p rest ih =>
    obtain ⟨idx, item⟩ := p
    intro entries hall h
    have hty := hall (idx, item) (List.mem_cons_self _ _)
    have hrestAll : ∀ q ∈ rest, inferType q.2 = some "image" ∨ inferType q.2 = some "text" :=
      fun q hq => hall q (List.mem_cons_of_mem _ hq)
    unfold preprocessGo at h
    rcases hty with hty | hty
    · rw [hty] at h
      simp only [reduceIte] at h
      cases hd : pyIntDuration item with
      | error e =>
        rw [hd] at h
        exact absurd h (by simp)
      | ok d =>
        rw [hd] at h
        cases hrec : preprocessGo env target rest with
        | error e =>
          rw [hrec] at h
          exact absurd h (by simp)
        | ok es =>
          rw [hrec] at h
          injection h with h2
          subst h2
          obtain ⟨ihShape, ihLen⟩ := ih es hrestAll hrec
          refine ⟨?_, by simp [ihLen]⟩
          intro en hen
          rcases List.mem_cons.mp hen with he | he
          · subst he
            exact ⟨"image_" ++ toString idx ++ ".mp4", rfl,
              image_filename_ne_empty idx, rfl, d, rfl⟩
          · exact ihShape en he
    · rw [hty] at h
      simp only [reduceIte] at h
      cases hd : pyIntDuration item with
      | error e =>
        rw [hd] at h
        exact absurd h (by simp)
      | ok d =>
        rw [hd] at h
        cases hrec : preprocessGo env target rest with
        | error e =>
          rw [hrec] at h
          exact absurd h (by simp)
        | ok es =>
          rw [hrec] at h
          injection h with h2
          subst h2
          obtain ⟨ihShape, ihLen⟩ := ih es hrestAll hrec
          refine ⟨?_, by simp [ihLen]⟩
          intro en hen
          rcases List.mem_cons.mp hen with he | he
          · subst he
            exact ⟨"text_" ++ toString idx ++ ".mp4", rfl,
              text_filename_ne_empty idx, rfl, d, rfl⟩
          · exact ihShape en he

/-- C6: a Clip item whose resolved file is absent (also counting the files
the materializer wrote) makes the whole render fail; an Image item whose
file does not exist resolves to the fixed fallback blank asset
`black.jpg`, and a timeline of image/text items renders to a completed
result (the synthesized segments are written into the clip store, so the
concat step finds every file). -/
theorem c6_missing_assets (env : FsEnv) (items : List TLItem) (bgm : Option String)
    (sfx : List SfxItem) (entries : List PEntry) :
    (preprocess_timeline_items env items = .ok entries →
      (∃ p ∈ entries.map (fun en => en.item),
        ∃ f, prepareClipFilename p = .ok f
          ∧ effExists env
              ((entries.filterMap (fun en => en.copiedFile?)).map (joinPath clipsDir))
              (joinPath clipsDir f) = false) →
      ∃ e, render_timeline_video env items bgm sfx = .error e)
    ∧ ((∀ q, env.pathExists q = false) → ∀ item, resolveImagePath env item = blackJpg)
    ∧ (¬ items = [] →
      (∀ item ∈ items, inferType item = some "image" ∨ inferType item = some "text") →
      preprocess_timeline_items env items = .ok entries →
      ∃ out, render_timeline_video env items bgm sfx = .ok out) := by
  refine ⟨?_, ?_, ?_⟩
  · intro hpre hmiss
    by_cases hemp : items = []
    · exact ⟨"No clips provided for rendering", by simp [render_timeline_video, hemp]⟩
    · obtain ⟨p, hp, f, hok, hex⟩ := hmiss
      have hbad : ∃ p2 ∈ entries.map (fun en => en.item),
          (∃ e, prepareClipFilename p2 = .error e)
          ∨ ∃ f2, prepareClipFilename p2 = .ok f2
              ∧ effExists env
                  ((entries.filterMap (fun en => en.copiedFile?)).map (joinPath clipsDir))
                  (joinPath clipsDir f2) = false :=
        ⟨p, hp, Or.inr ⟨f, hok, hex⟩⟩
      obtain ⟨e2, he2⟩ := prepare_concat_list_error_of_missing env _ _ hbad
      cases hcr : computeRegions (entries.map (fun en => en.item)) with
      | error e3 =>
        exact ⟨"Video rendering failed: " ++ e3,
          by simp [render_timeline_video, hemp, render_timeline_core, hpre, hcr]⟩
      | ok regs =>
        obtain ⟨mr, pr⟩ := regs
        exact ⟨"Video rendering failed: " ++ e2,
          by simp [render_timeline_video, hemp, render_timeline_core, hpre, hcr, he2]⟩
  · intro henv item
    simp [resolveImagePath, henv]
  · intro hne hall hpre
    have hpre2 := hpre
    unfold preprocess_timeline_items at hpre2
    have hallEnum : ∀ p ∈ items.enum, inferType p.2 = some "image" ∨ inferType p.2 = some "text" :=
      fun p hp => hall p.2 (snd_mem_of_mem_enumFrom items 0 p hp)
    obtain ⟨hShape, hLen⟩ := preprocessGo_entries_synth env
      (detect_target_resolution env items) items.enum entries hallEnum hpre2
    have hLenItems : entries.length = items.length := by
      rw [hLen]
      simp [List.enum]
    have hEntriesNe : ¬ entries = [] := by
      intro h0
      rw [h0] at hLenItems
      exact hne (List.eq_nil_of_length_eq_zero hLenItems.symm)
    have hDur : ∀ q ∈ entries.map (fun en => en.item), ∃ d : ℤ, q.duration? = some (pyStrOfInt d) := by
      intro q hq
      obtain ⟨en, hen, rfl⟩ := List.mem_map.mp hq
      obtain ⟨fn, _, _, _, d, hd⟩ := hShape en hen
      exact ⟨d, hd⟩
    obtain ⟨⟨mr, pr⟩, hcr⟩ := computeRegionsGo_ok_of_pyStr (entries.map (fun en => en.item)) hDur 0
    have hPrepAll : ∀ q ∈ entries.map (fun en => en.item),
        ∃ f, prepareClipFilename q = .ok f
          ∧ effExists env
              ((entries.filterMap (fun en => en.copiedFile?)).map (joinPath clipsDir))
              (joinPath clipsDir f) = true := by
      intro q hq
      obtain ⟨en, hen, rfl⟩ := List.mem_map.mp hq
      obtain ⟨fn, hcf, hfne, hcp, _⟩ := hShape en hen
      refine ⟨fn, by simp [prepareClipFilename, hcf, hfne], ?_⟩
      have hmem : joinPath clipsDir fn
          ∈ (entries.filterMap (fun en => en.copiedFile?)).map (joinPath clipsDir) :=
        List.mem_map.mpr ⟨fn, List.mem_filterMap.mpr ⟨en, hen, hcp⟩, rfl⟩
      unfold effExists
      rw [Bool.or_eq_true]
      right
      exact List.elem_iff.mpr hmem
    obtain ⟨fs, hfs, hfsLen⟩ := prepare_concat_list_ok env _ _ hPrepAll
    have hfsNe : ¬ fs = [] := by
      intro h0
      rw [h0] at hfsLen
      have : entries.map (fun en => en.item) = [] := List.eq_nil_of_length_eq_zero hfsLen.symm
      exact hEntriesNe (List.map_eq_nil_iff.mp this)
    have hcr2 : computeRegions (entries.map (fun en => en.item)) = .ok (mr, pr) := hcr
    refine ⟨{ muteRegions := mr
              playRegions := pr
              concatFiles := fs
              mixPlan := if truthy bgm ∧ env.pathExists (bgm.getD "") then
                  some (add_bgm_and_sfx_with_mute env "concatenated_video.mp4" bgm sfx mr)
                else none
              entries := entries }, ?_⟩
    simp only [render_timeline_video, render_timeline_core, if_neg hne, hpre, hcr2, hfs,
      if_neg hfsNe]

/-- C6 witness: the theorem applied (a) to a timeline containing a Clip
item whose file is absent — the render fails — and (b) to a single Image
item in an environment with no files at all — the source resolves to the
blank fallback asset and the render completes. -/
theorem c6_missing_assets_witness :
    (∃ e, render_timeline_video exEnvEmpty [exClipItem] none [] = .error e)
    ∧ resolveImagePath exEnvEmpty exImageMissing = blackJpg
    ∧ (∃ out, render_timeline_video exEnvEmpty [exImageMissing] none [] = .ok out) := by
  have hclip := (c6_missing_assets exEnvEmpty [exClipItem] none []
    [{ item := processedClip 0 exClipItem }]).1 rfl
    ⟨processedClip 0 exClipItem, by decide, "a.mp4", rfl, rfl⟩
  have h6 := c6_missing_assets exEnvEmpty [exImageMissing] none []
    [{ item := processedSynth "Image" 0 exImageMissing (pyStrOfInt 4) "image_0.mp4"
       synthSource? := some blackJpg
       synthResolution? := some "1280x720"
       copiedFile? := some "image_0.mp4" }]
  refine ⟨hclip, h6.2.1 (by intro q; rfl) exImageMissing, h6.2.2 (by simp) ?_ ?_⟩
  · intro item hitem
    rcases List.mem_singleton.mp hitem with rfl
    left
    rfl
  · rfl

/-- C9 counterexample: the claim says every duration accepted by the parser
yields a non-negative number, but `parse_duration` accepts the plain
numeric literal `"-5"` (Python `float("-5")`) and returns −5. -/
theorem c9_counterexample :
    parse_duration (.str "-5") = .ok (-5 : ℚ) ∧ ¬ ((0 : ℚ) ≤ -5) := by
  constructor
  · have hval : parse_duration (.str "-5") = .ok (-(natOfDigits ['5'] : ℚ)) := rfl
    have h5 : natOfDigits ['5'] = 5 := by decide
    rw [hval, h5]
    norm_num
  · norm_num

/-- C9 (amended): a `minutes:seconds` label parses to
`60 * minutes + seconds`, a plain numeric literal parses to its value, and
the result is non-negative whenever the parsed components are non-negative
(the parser itself performs no sign check, so negative literals are
accepted and produce negative durations). -/
theorem c9_parse_duration_amended (s : String) (m sec : List Char) (a : ℤ) (b q : ℚ) :
    (s.data.any (fun c => c = ':') = true →
      splitOnChar ':' s.data = [m, sec] →
      pyIntOfList m = some a → pyFloatOfList sec = some b →
      parse_duration (.str s) = .ok ((a : ℚ) * 60 + b)
        ∧ (0 ≤ a → 0 ≤ b → 0 ≤ (a : ℚ) * 60 + b))
    ∧ (s.data.any (fun c => c = ':') = false →
      pyFloatOfList s.data = some q →
      parse_duration (.str s) = .ok q)
    ∧ (∀ r : ℚ, parse_duration (.num r) = .ok r) := by
  refine ⟨?_, ?_, fun r => rfl⟩
  · intro hc hsplit hm hsec
    constructor
    · simp [parse_duration, hc, hsplit, hm, hsec]
    · intro ha hb
      have : (0 : ℚ) ≤ (a : ℚ) * 60 := by
        have : (0 : ℚ) ≤ (a : ℚ) := by exact_mod_cast ha
        linarith
      linarith
  · intro hc hq
    simp [parse_duration, hc, hq]

/-- C9 witness: the amended theorem applied at the label `"1:30"`. -/
theorem c9_parse_duration_witness :
    parse_duration (.str "1:30") = .ok 90 := by
  have hm : pyIntOfList ['1'] = some 1 := by decide
  have hsec : pyFloatOfList ['3', '0'] = some ((30 : ℕ) : ℚ) := rfl
  have h := ((c9_parse_duration_amended "1:30" ['1'] ['3', '0'] 1 ((30 : ℕ) : ℚ) 0).1
    (by decide) (by decide) hm hsec).1
  rw [h]
  norm_num

/-- C10: a render invocation with an empty timeline list raises
`ValueError` in both `render_timeline_video` (line 257, before the `try`
block and before any temp directory or output file is created) and
`render_project_video` (line 702), so the background worker records the
job as `failed` with no result attached — no output file is produced. -/
theorem c10_empty_timeline_fails (env : FsEnv) (bgm : Option String) (sfx : List SfxItem)
    (bgm2 : Option String) (sfx2 : List SfxItem) (job_id : String) (e : String) :
    render_timeline_video env [] bgm sfx = .error "No clips provided for rendering"
    ∧ render_project_video env
        { timeline_clips := [], bgm_path? := bgm2, sfx_list := sfx2 }
      = .error "No clips in timeline to render"
    ∧ (renderWorkerFinal job_id (.error e)).status = "failed"
    ∧ (renderWorkerFinal job_id (.error e)).result? = none := by
  exact ⟨rfl, rfl, rfl, rfl⟩

end ClipCraft
